import Mathlib

/-!
Verification of the chronoboids WASM physics kernels
(`src/wasm-physics/src/lib.rs`).

The kernels operate on flat interleaved `f32` buffers; we model a buffer as
a `List ℝ` (idealized real-valued arithmetic standing for `f32`, with
`Real.sqrt` for `f32::sqrt`).  The source's defensive access discipline is
translated exactly:

* `slice.get(idx).copied().unwrap_or(0.0)`  becomes  `l.getD idx 0`
  (an out-of-range read yields the default `0`);
* `if let Some(v) = slice.get_mut(idx) { *v = x }`  becomes  `l.set idx x`
  (`List.set` drops an out-of-range write);
* the guarded in-place updates of `wrap_positions_all` and
  `bounce_positions_all`, which first test that `get_mut` succeeds, carry
  their explicit `idx < length` guards.

Each `for i in 0..count` loop becomes `kiter step count state`, which applies
`step` at agent indices `0, 1, …, count - 1` in ascending order.
-/

/-- Largest finite value of the `f32` type, `f32::MAX = (2 - 2⁻²³)·2¹²⁷`. -/
noncomputable def f32Max : ℝ := 2 ^ 128 - 2 ^ 104

/-- `kiter f n s` runs `s` through `f · 0`, `f · 1`, …, `f · (n-1)` in order:
the shallow embedding of `for i in 0..n { body }` over loop state `s`. -/
def kiter {α : Type} (f : α → Nat → α) : Nat → α → α
  | 0, s => s
  | n + 1, s => f (kiter f n s) n

/-- One iteration of the `integrate_all` loop body (source lines 57–102),
acting on the loop state `(positions, velocities)` at agent `i`. -/
noncomputable def integrateStep (accelerations : List ℝ)
    (dt min_speed max_speed drag : ℝ) (s : List ℝ × List ℝ) (i : Nat) :
    List ℝ × List ℝ :=
  let drag_factor := 1 - drag
  let min_speed_sq := min_speed * min_speed
  let max_speed_sq := max_speed * max_speed
  let idx := i * 2
  let ax := accelerations.getD idx 0
  let ay := accelerations.getD (idx + 1) 0
  let vx := s.2.getD idx 0
  let vy := s.2.getD (idx + 1) 0
  let new_vx := (vx + ax * dt) * drag_factor
  let new_vy := (vy + ay * dt) * drag_factor
  let speed_sq := new_vx * new_vx + new_vy * new_vy
  let clamped : ℝ × ℝ :=
    if speed_sq > max_speed_sq then
      (new_vx * (max_speed / Real.sqrt speed_sq),
       new_vy * (max_speed / Real.sqrt speed_sq))
    else if speed_sq < min_speed_sq ∧ speed_sq > 0.0001 then
      (new_vx * (min_speed / Real.sqrt speed_sq),
       new_vy * (min_speed / Real.sqrt speed_sq))
    else (new_vx, new_vy)
  let velocities := (s.2.set idx clamped.1).set (idx + 1) clamped.2
  let px := s.1.getD idx 0
  let py := s.1.getD (idx + 1) 0
  let positions :=
    (s.1.set idx (px + clamped.1 * dt)).set (idx + 1) (py + clamped.2 * dt)
  (positions, velocities)

/-- `integrate_all` (source lines 43–103): advances velocities by
acceleration, applies drag and the speed clamp, then advances positions;
returns the mutated `(positions, velocities)` pair. -/
noncomputable def integrate_all (positions velocities accelerations : List ℝ)
    (dt min_speed max_speed drag : ℝ) : List ℝ × List ℝ :=
  kiter (integrateStep accelerations dt min_speed max_speed drag)
    (positions.length / 2) (positions, velocities)

/-- `apply_drag_all` (source lines 111–116): multiplies every scalar
component of `velocities` by `1 - drag`. -/
noncomputable def apply_drag_all (velocities : List ℝ) (drag : ℝ) : List ℝ :=
  velocities.map (fun v => v * (1 - drag))

/-- One iteration of the `clamp_speeds_all` loop body (source lines 130–154)
at agent `i`. -/
noncomputable def clampStep (min_speed max_speed : ℝ) (velocities : List ℝ)
    (i : Nat) : List ℝ :=
  let min_sq := min_speed * min_speed
  let max_sq := max_speed * max_speed
  let idx := i * 2
  let vx := velocities.getD idx 0
  let vy := velocities.getD (idx + 1) 0
  let speed_sq := vx * vx + vy * vy
  if speed_sq > max_sq then
    let scale := max_speed / Real.sqrt speed_sq
    (velocities.set idx (vx * scale)).set (idx + 1) (vy * scale)
  else if speed_sq < min_sq ∧ speed_sq > 0.0001 then
    let scale := min_speed / Real.sqrt speed_sq
    (velocities.set idx (vx * scale)).set (idx + 1) (vy * scale)
  else velocities

/-- `clamp_speeds_all` (source lines 125–155). -/
noncomputable def clamp_speeds_all (velocities : List ℝ)
    (min_speed max_speed : ℝ) : List ℝ :=
  kiter (clampStep min_speed max_speed) (velocities.length / 2) velocities

/-- Inner target scan of `compute_distances_batch` (source lines 174–188):
the running minimum squared distance after scanning targets `0, …, n-1`,
starting from `f32::MAX`. -/
noncomputable def minDistLoop (px py : ℝ) (targets : List ℝ) : Nat → ℝ
  | 0 => f32Max
  | j + 1 =>
    let min_dist_sq := minDistLoop px py targets j
    let tidx := j * 2
    let tx := targets.getD tidx 0
    let ty := targets.getD (tidx + 1) 0
    let dx := px - tx
    let dy := py - ty
    let dist_sq := dx * dx + dy * dy
    if dist_sq < min_dist_sq then dist_sq else min_dist_sq

/-- One iteration of the outer `compute_distances_batch` loop (source lines
168–193) at agent `i`, acting on the `out` buffer. -/
noncomputable def distStep (positions targets : List ℝ) (out : List ℝ)
    (i : Nat) : List ℝ :=
  let idx := i * 2
  let px := positions.getD idx 0
  let py := positions.getD (idx + 1) 0
  out.set i (minDistLoop px py targets (targets.length / 2))

/-- `compute_distances_batch` (source lines 164–194): writes into `out[i]`
the running minimum over all complete target pairs of the squared distance
from agent `i`'s position. -/
noncomputable def compute_distances_batch (positions targets out : List ℝ) :
    List ℝ :=
  kiter (distStep positions targets) (positions.length / 2) out

/-- One axis of the `wrap_positions_all` loop body (source lines 209–223):
the source first checks `get_mut(idx)` succeeds, then wraps in place. -/
noncomputable def wrapAxis (dim : ℝ) (l : List ℝ) (idx : Nat) : List ℝ :=
  if idx < l.length then
    let p := l.getD idx 0
    if p < 0 then l.set idx (p + dim)
    else if p ≥ dim then l.set idx (p - dim)
    else l
  else l

/-- One iteration of the `wrap_positions_all` loop (source lines 206–224)
at agent `i`: wrap X against `width`, then Y against `height`. -/
noncomputable def wrapStep (width height : ℝ) (positions : List ℝ) (i : Nat) :
    List ℝ :=
  wrapAxis height (wrapAxis width positions (i * 2)) (i * 2 + 1)

/-- `wrap_positions_all` (source lines 203–225). -/
noncomputable def wrap_positions_all (positions : List ℝ)
    (width height : ℝ) : List ℝ :=
  kiter (wrapStep width height) (positions.length / 2) positions

/-- One axis of the `bounce_positions_all` loop body (source lines 247–266):
the clamp runs only when both the position and the velocity entry at `idx`
exist (`if let (Some(px), Some(vx)) = (positions.get_mut(idx),
velocities.get_mut(idx))`). -/
noncomputable def bounceAxis (dim : ℝ) (s : List ℝ × List ℝ) (idx : Nat) :
    List ℝ × List ℝ :=
  if idx < s.1.length ∧ idx < s.2.length then
    let p := s.1.getD idx 0
    let v := s.2.getD idx 0
    if p < 0 then (s.1.set idx 0, s.2.set idx |v|)
    else if p ≥ dim then (s.1.set idx (dim - 0.001), s.2.set idx (-|v|))
    else s
  else s

/-- One iteration of the `bounce_positions_all` loop (source lines 243–267)
at agent `i`: X bounds against `width`, then Y bounds against `height`. -/
noncomputable def bounceStep (width height : ℝ) (s : List ℝ × List ℝ)
    (i : Nat) : List ℝ × List ℝ :=
  bounceAxis height (bounceAxis width s (i * 2)) (i * 2 + 1)

/-- `bounce_positions_all` (source lines 235–268): returns the mutated
`(positions, velocities)` pair. -/
noncomputable def bounce_positions_all (positions velocities : List ℝ)
    (width height : ℝ) : List ℝ × List ℝ :=
  kiter (bounceStep width height) (positions.length / 2)
    (positions, velocities)

/-- `reset_accelerations_all` (source lines 275–279): zeroes every scalar
component. -/
noncomputable def reset_accelerations_all (accelerations : List ℝ) :
    List ℝ :=
  accelerations.map (fun _ => 0)

/-- One iteration of the `add_force_all` loop body (source lines 291–299)
at agent `i`. -/
noncomputable def addForceStep (force_x force_y : ℝ)
    (accelerations : List ℝ) (i : Nat) : List ℝ :=
  let idx := i * 2
  let a1 := accelerations.set idx (accelerations.getD idx 0 + force_x)
  a1.set (idx + 1) (a1.getD (idx + 1) 0 + force_y)

/-- `add_force_all` (source lines 288–300). -/
noncomputable def add_force_all (accelerations : List ℝ)
    (force_x force_y : ℝ) : List ℝ :=
  kiter (addForceStep force_x force_y) (accelerations.length / 2)
    accelerations

/-- `simd_supported` (source lines 24–28): a fixed affirmative. -/
def simd_supported : Bool := true

/-! ### Generic loop lemmas -/

theorem kiter_zero {α : Type} (f : α → Nat → α) (s : α) : kiter f 0 s = s :=
  rfl

theorem kiter_succ {α : Type} (f : α → Nat → α) (n : Nat) (s : α) :
    kiter f (n + 1) s = f (kiter f n s) n :=
  rfl

theorem kiter_length {α : Type} (f : α → Nat → α) (g : α → List ℝ)
    (H : ∀ s k, (g (f s k)).length = (g s).length) :
    ∀ (n : Nat) (s : α), (g (kiter f n s)).length = (g s).length
  | 0, _ => rfl
  | n + 1, s => by rw [kiter_succ, H, kiter_length f g H n s]

theorem kiter_getElem_high {α : Type} (f : α → Nat → α) (g : α → List ℝ)
    (c : Nat) (H : ∀ s k j, c * (k + 1) ≤ j → (g (f s k))[j]? = (g s)[j]?) :
    ∀ (n : Nat) (s : α) (j : Nat), c * n ≤ j →
      (g (kiter f n s))[j]? = (g s)[j]?
  | 0, _, _, _ => rfl
  | n + 1, s, j, h => by
    rw [kiter_succ, H _ n j h, kiter_getElem_high f g c H n s j
      (le_trans (Nat.mul_le_mul (le_refl c) (Nat.le_succ n)) h)]

theorem kiter_getElem_decompose {α : Type} (f : α → Nat → α) (g : α → List ℝ)
    (c : Nat) (H : ∀ s k j, j < c * k → (g (f s k))[j]? = (g s)[j]?) :
    ∀ (n i j : Nat), i < n → j < c * (i + 1) → ∀ s : α,
      (g (kiter f n s))[j]? = (g (f (kiter f i s) i))[j]?
  | 0, i, _, hin, _, _ => absurd hin (Nat.not_lt_zero i)
  | n + 1, i, j, hin, hj, s => by
    rcases Nat.lt_succ_iff_lt_or_eq.mp hin with h | rfl
    · rw [kiter_succ, H _ n j (lt_of_lt_of_le hj (Nat.mul_le_mul (le_refl c) h)),
        kiter_getElem_decompose f g c H n i j h hj s]
    · rfl

/-! ### List access helpers -/

theorem getElem?_set_lt (l : List ℝ) (i : Nat) (a : ℝ) (h : i < l.length) :
    (l.set i a)[i]? = some a := by
  simp [List.getElem?_set, h]

theorem set_getD_self : ∀ (l : List ℝ) (i : Nat), l.set i (l.getD i 0) = l
  | [], _ => rfl
  | _ :: _, 0 => rfl
  | a :: l, i + 1 => by
    rw [List.getD_cons_succ, List.set_cons_succ, set_getD_self l i]

theorem getD_eq_of_getElem? (l : List ℝ) (j : Nat) (x : ℝ)
    (h : l[j]? = some x) : l.getD j 0 = x := by
  rw [List.getD_eq_getElem?_getD, h]; rfl

theorem getD_eq_zero_of_ge (l : List ℝ) (j : Nat) (h : l.length ≤ j) :
    l.getD j 0 = 0 := by
  rw [List.getD_eq_getElem?_getD, List.getElem?_eq_none h]; rfl

/-! ### Structural lemmas for the loop bodies -/

theorem integrateStep_fst_length (accelerations : List ℝ)
    (dt minS maxS drag : ℝ) (s : List ℝ × List ℝ) (k : Nat) :
    (integrateStep accelerations dt minS maxS drag s k).1.length =
      s.1.length := by
  simp [integrateStep]

theorem integrateStep_snd_length (accelerations : List ℝ)
    (dt minS maxS drag : ℝ) (s : List ℝ × List ℝ) (k : Nat) :
    (integrateStep accelerations dt minS maxS drag s k).2.length =
      s.2.length := by
  simp [integrateStep]

theorem integrateStep_fst_getElem_ne (accelerations : List ℝ)
    (dt minS maxS drag : ℝ) (s : List ℝ × List ℝ) (k j : Nat)
    (h1 : j ≠ k * 2) (h2 : j ≠ k * 2 + 1) :
    (integrateStep accelerations dt minS maxS drag s k).1[j]? = s.1[j]? := by
  simp only [integrateStep]
  rw [List.getElem?_set_ne (Ne.symm h2), List.getElem?_set_ne (Ne.symm h1)]

theorem integrateStep_snd_getElem_ne (accelerations : List ℝ)
    (dt minS maxS drag : ℝ) (s : List ℝ × List ℝ) (k j : Nat)
    (h1 : j ≠ k * 2) (h2 : j ≠ k * 2 + 1) :
    (integrateStep accelerations dt minS maxS drag s k).2[j]? = s.2[j]? := by
  simp only [integrateStep]
  rw [List.getElem?_set_ne (Ne.symm h2), List.getElem?_set_ne (Ne.symm h1)]

theorem clampStep_length (minS maxS : ℝ) (l : List ℝ) (k : Nat) :
    (clampStep minS maxS l k).length = l.length := by
  simp only [clampStep]
  split_ifs <;> simp

theorem clampStep_getElem_ne (minS maxS : ℝ) (l : List ℝ) (k j : Nat)
    (h1 : j ≠ k * 2) (h2 : j ≠ k * 2 + 1) :
    (clampStep minS maxS l k)[j]? = l[j]? := by
  simp only [clampStep]
  split_ifs
  · rw [List.getElem?_set_ne (Ne.symm h2), List.getElem?_set_ne (Ne.symm h1)]
  · rw [List.getElem?_set_ne (Ne.symm h2), List.getElem?_set_ne (Ne.symm h1)]
  · rfl

theorem distStep_length (positions targets : List ℝ) (out : List ℝ)
    (k : Nat) : (distStep positions targets out k).length = out.length := by
  simp [distStep]

theorem distStep_getElem_ne (positions targets : List ℝ) (out : List ℝ)
    (k j : Nat) (h : j ≠ k) :
    (distStep positions targets out k)[j]? = out[j]? := by
  simp only [distStep]
  rw [List.getElem?_set_ne (Ne.symm h)]

theorem wrapAxis_length (dim : ℝ) (l : List ℝ) (idx : Nat) :
    (wrapAxis dim l idx).length = l.length := by
  simp only [wrapAxis]
  split_ifs <;> simp

theorem wrapAxis_getElem_ne (dim : ℝ) (l : List ℝ) (idx j : Nat)
    (h : j ≠ idx) : (wrapAxis dim l idx)[j]? = l[j]? := by
  simp only [wrapAxis]
  split_ifs <;> first
    | rfl
    | rw [List.getElem?_set_ne (Ne.symm h)]

theorem wrapStep_length (w h : ℝ) (l : List ℝ) (k : Nat) :
    (wrapStep w h l k).length = l.length := by
  rw [wrapStep, wrapAxis_length, wrapAxis_length]

theorem wrapStep_getElem_ne (w h : ℝ) (l : List ℝ) (k j : Nat)
    (h1 : j ≠ k * 2) (h2 : j ≠ k * 2 + 1) :
    (wrapStep w h l k)[j]? = l[j]? := by
  rw [wrapStep, wrapAxis_getElem_ne _ _ _ _ h2, wrapAxis_getElem_ne _ _ _ _ h1]

theorem bounceAxis_fst_length (dim : ℝ) (s : List ℝ × List ℝ) (idx : Nat) :
    (bounceAxis dim s idx).1.length = s.1.length := by
  simp only [bounceAxis]
  split_ifs <;> simp

theorem bounceAxis_snd_length (dim : ℝ) (s : List ℝ × List ℝ) (idx : Nat) :
    (bounceAxis dim s idx).2.length = s.2.length := by
  simp only [bounceAxis]
  split_ifs <;> simp

theorem bounceAxis_fst_getElem_ne (dim : ℝ) (s : List ℝ × List ℝ)
    (idx j : Nat) (h : j ≠ idx) :
    (bounceAxis dim s idx).1[j]? = s.1[j]? := by
  simp only [bounceAxis]
  split_ifs <;> first
    | rfl
    | rw [List.getElem?_set_ne (Ne.symm h)]

theorem bounceAxis_snd_getElem_ne (dim : ℝ) (s : List ℝ × List ℝ)
    (idx j : Nat) (h : j ≠ idx) :
    (bounceAxis dim s idx).2[j]? = s.2[j]? := by
  simp only [bounceAxis]
  split_ifs <;> first
    | rfl
    | rw [List.getElem?_set_ne (Ne.symm h)]

theorem bounceStep_fst_length (w h : ℝ) (s : List ℝ × List ℝ) (k : Nat) :
    (bounceStep w h s k).1.length = s.1.length := by
  rw [bounceStep, bounceAxis_fst_length, bounceAxis_fst_length]

theorem bounceStep_snd_length (w h : ℝ) (s : List ℝ × List ℝ) (k : Nat) :
    (bounceStep w h s k).2.length = s.2.length := by
  rw [bounceStep, bounceAxis_snd_length, bounceAxis_snd_length]

theorem bounceStep_fst_getElem_ne (w h : ℝ) (s : List ℝ × List ℝ)
    (k j : Nat) (h1 : j ≠ k * 2) (h2 : j ≠ k * 2 + 1) :
    (bounceStep w h s k).1[j]? = s.1[j]? := by
  rw [bounceStep, bounceAxis_fst_getElem_ne _ _ _ _ h2,
    bounceAxis_fst_getElem_ne _ _ _ _ h1]

theorem bounceStep_snd_getElem_ne (w h : ℝ) (s : List ℝ × List ℝ)
    (k j : Nat) (h1 : j ≠ k * 2) (h2 : j ≠ k * 2 + 1) :
    (bounceStep w h s k).2[j]? = s.2[j]? := by
  rw [bounceStep, bounceAxis_snd_getElem_ne _ _ _ _ h2,
    bounceAxis_snd_getElem_ne _ _ _ _ h1]

theorem addForceStep_length (fx fy : ℝ) (l : List ℝ) (k : Nat) :
    (addForceStep fx fy l k).length = l.length := by
  simp [addForceStep]

theorem addForceStep_getElem_ne (fx fy : ℝ) (l : List ℝ) (k j : Nat)
    (h1 : j ≠ k * 2) (h2 : j ≠ k * 2 + 1) :
    (addForceStep fx fy l k)[j]? = l[j]? := by
  simp only [addForceStep]
  rw [List.getElem?_set_ne (Ne.symm h2), List.getElem?_set_ne (Ne.symm h1)]

/-! ### Length preservation for every kernel -/

theorem integrate_all_fst_length (ps vs acc : List ℝ)
    (dt minS maxS drag : ℝ) :
    (integrate_all ps vs acc dt minS maxS drag).1.length = ps.length :=
  kiter_length _ Prod.fst
    (fun s k => integrateStep_fst_length acc dt minS maxS drag s k)
    (ps.length / 2) (ps, vs)

theorem integrate_all_snd_length (ps vs acc : List ℝ)
    (dt minS maxS drag : ℝ) :
    (integrate_all ps vs acc dt minS maxS drag).2.length = vs.length :=
  kiter_length _ Prod.snd
    (fun s k => integrateStep_snd_length acc dt minS maxS drag s k)
    (ps.length / 2) (ps, vs)

theorem apply_drag_all_length (vs : List ℝ) (drag : ℝ) :
    (apply_drag_all vs drag).length = vs.length :=
  List.length_map vs _

theorem clamp_speeds_all_length (vs : List ℝ) (minS maxS : ℝ) :
    (clamp_speeds_all vs minS maxS).length = vs.length :=
  kiter_length _ (fun l => l) (fun l k => clampStep_length minS maxS l k)
    (vs.length / 2) vs

theorem compute_distances_batch_length (positions targets out : List ℝ) :
    (compute_distances_batch positions targets out).length = out.length :=
  kiter_length _ (fun l => l)
    (fun l k => distStep_length positions targets l k)
    (positions.length / 2) out

theorem wrap_positions_all_length (ps : List ℝ) (w h : ℝ) :
    (wrap_positions_all ps w h).length = ps.length :=
  kiter_length _ (fun l => l) (fun l k => wrapStep_length w h l k)
    (ps.length / 2) ps

theorem bounce_positions_all_fst_length (ps vs : List ℝ) (w h : ℝ) :
    (bounce_positions_all ps vs w h).1.length = ps.length :=
  kiter_length _ Prod.fst (fun s k => bounceStep_fst_length w h s k)
    (ps.length / 2) (ps, vs)

theorem bounce_positions_all_snd_length (ps vs : List ℝ) (w h : ℝ) :
    (bounce_positions_all ps vs w h).2.length = vs.length :=
  kiter_length _ Prod.snd (fun s k => bounceStep_snd_length w h s k)
    (ps.length / 2) (ps, vs)

theorem reset_accelerations_all_length (acc : List ℝ) :
    (reset_accelerations_all acc).length = acc.length :=
  List.length_map acc _

theorem add_force_all_length (acc : List ℝ) (fx fy : ℝ) :
    (add_force_all acc fx fy).length = acc.length :=
  kiter_length _ (fun l => l) (fun l k => addForceStep_length fx fy l k)
    (acc.length / 2) acc

/-! ### Pointwise write/read helpers -/

theorem getElem?_set_self_map (l : List ℝ) (n : Nat) (x : ℝ) :
    (l.set n x)[n]? = (l[n]?).map (fun _ => x) := by
  rcases Nat.lt_or_ge n l.length with h | h
  · rw [getElem?_set_lt l n x h, List.getElem?_eq_getElem h]
    rfl
  · rw [List.getElem?_eq_none h,
      List.getElem?_eq_none (by simpa using h : (l.set n x).length ≤ n)]
    rfl

theorem getElem?_set_getD_add (l : List ℝ) (n : Nat) (q : ℝ) :
    (l.set n (l.getD n 0 + q))[n]? = (l[n]?).map (fun p => p + q) := by
  rcases Nat.lt_or_ge n l.length with h | h
  · rw [getElem?_set_lt _ _ _ h, List.getElem?_eq_getElem h]
    have hd : l.getD n 0 = l[n] := by
      rw [List.getD_eq_getElem?_getD, List.getElem?_eq_getElem h]
      rfl
    rw [hd]
    rfl
  · rw [List.getElem?_eq_none h,
      List.getElem?_eq_none (by simpa using h : (l.set n _).length ≤ n)]
    rfl

theorem getElem?_set_set_getD_add (l : List ℝ) (a b : Nat) (x q : ℝ)
    (h : a ≠ b) :
    ((l.set a x).set b (l.getD b 0 + q))[b]? = (l[b]?).map (fun p => p + q) := by
  have hg : l.getD b 0 = (l.set a x).getD b 0 := by
    rw [List.getD_eq_getElem?_getD, List.getD_eq_getElem?_getD,
      List.getElem?_set_ne h]
  rw [hg, getElem?_set_getD_add, List.getElem?_set_ne h]

theorem getElem?_set_set_self (l : List ℝ) (m j : Nat) (x : ℝ) (h : m ≠ j) :
    ((l.set m x).set j (l.getD j 0))[j]? = l[j]? := by
  have hg : l.getD j 0 = (l.set m x).getD j 0 := by
    rw [List.getD_eq_getElem?_getD, List.getD_eq_getElem?_getD,
      List.getElem?_set_ne h]
  rw [hg, set_getD_self, List.getElem?_set_ne h]

theorem getD_set_self_of_lt (l : List ℝ) (n : Nat) (x : ℝ)
    (h : n < l.length) : (l.set n x).getD n 0 = x := by
  rw [List.getD_eq_getElem?_getD, getElem?_set_lt l n x h]
  rfl

theorem getElem?_set_eq_self_of_getD (l : List ℝ) (n : Nat) (x : ℝ)
    (h : x = l.getD n 0) : (l.set n x)[n]? = l[n]? := by
  rw [h, set_getD_self]

theorem getElem?_set_set_eq_self_of_getD (l : List ℝ) (m j : Nat) (x y : ℝ)
    (hm : m ≠ j) (h : y = l.getD j 0) :
    ((l.set m x).set j y)[j]? = l[j]? := by
  rw [h]
  exact getElem?_set_set_self l m j x hm

/-! ### Value-level lemmas for the integrate and clamp loop bodies -/

theorem integrateStep_spec_noclamp (acc : List ℝ) (dt minS maxS drag : ℝ)
    (s : List ℝ × List ℝ) (i : Nat) (nvx nvy : ℝ)
    (hx : nvx = (s.2.getD (i * 2) 0 + acc.getD (i * 2) 0 * dt) * (1 - drag))
    (hy : nvy =
      (s.2.getD (i * 2 + 1) 0 + acc.getD (i * 2 + 1) 0 * dt) * (1 - drag))
    (hnmax : ¬ nvx * nvx + nvy * nvy > maxS * maxS)
    (hnmin : ¬ (nvx * nvx + nvy * nvy < minS * minS ∧
      nvx * nvx + nvy * nvy > 0.0001)) :
    (integrateStep acc dt minS maxS drag s i).2[i * 2]? =
      (s.2[i * 2]?).map (fun _ => nvx) ∧
    (integrateStep acc dt minS maxS drag s i).2[i * 2 + 1]? =
      (s.2[i * 2 + 1]?).map (fun _ => nvy) ∧
    (integrateStep acc dt minS maxS drag s i).1[i * 2]? =
      (s.1[i * 2]?).map (fun p => p + nvx * dt) ∧
    (integrateStep acc dt minS maxS drag s i).1[i * 2 + 1]? =
      (s.1[i * 2 + 1]?).map (fun p => p + nvy * dt) := by
  simp only [integrateStep, ← hx, ← hy, if_neg hnmax, if_neg hnmin]
  refine ⟨?_, ?_, ?_, ?_⟩
  · rw [List.getElem?_set_ne (by omega)]
    exact getElem?_set_self_map s.2 (i * 2) nvx
  · rw [getElem?_set_self_map, List.getElem?_set_ne (by omega)]
  · rw [List.getElem?_set_ne (by omega)]
    exact getElem?_set_getD_add s.1 (i * 2) (nvx * dt)
  · exact getElem?_set_set_getD_add s.1 (i * 2) (i * 2 + 1) _ (nvy * dt)
      (by omega)

theorem integrateStep_fst_unchanged_of_zero (acc : List ℝ)
    (dt minS maxS drag : ℝ) (s : List ℝ × List ℝ) (i j : Nat)
    (hj : j = i * 2 ∨ j = i * 2 + 1)
    (hv : s.2.getD j 0 = 0) (ha : acc.getD j 0 = 0) :
    (integrateStep acc dt minS maxS drag s i).1[j]? = s.1[j]? := by
  rcases hj with rfl | rfl
  · simp only [integrateStep, hv, ha]
    split_ifs <;>
      rw [List.getElem?_set_ne (by omega),
        getElem?_set_eq_self_of_getD _ _ _ (by ring)]
  · simp only [integrateStep, hv, ha]
    split_ifs <;>
      rw [getElem?_set_set_eq_self_of_getD _ _ _ _ _ (by omega) (by ring)]

theorem clampStep_eq_of_noclamp (minS maxS : ℝ) (l : List ℝ) (i : Nat)
    (vx vy : ℝ) (hvx : l.getD (i * 2) 0 = vx) (hvy : l.getD (i * 2 + 1) 0 = vy)
    (h1 : ¬ vx * vx + vy * vy > maxS * maxS)
    (h2 : ¬ (vx * vx + vy * vy < minS * minS ∧ vx * vx + vy * vy > 0.0001)) :
    clampStep minS maxS l i = l := by
  simp only [clampStep, hvx, hvy]
  rw [if_neg h1, if_neg h2]

/-! ### Agent-level access through the loop -/

theorem kiter_pair_agent {f : List ℝ × List ℝ → Nat → List ℝ × List ℝ}
    (Hfl : ∀ s k, (f s k).1.length = s.1.length)
    (Hsl : ∀ s k, (f s k).2.length = s.2.length)
    (Hf1 : ∀ s k j, j ≠ k * 2 → j ≠ k * 2 + 1 → (f s k).1[j]? = s.1[j]?)
    (Hf2 : ∀ s k j, j ≠ k * 2 → j ≠ k * 2 + 1 → (f s k).2[j]? = s.2[j]?)
    (n i : Nat) (hi : i < n) (s : List ℝ × List ℝ) :
    (kiter f i s).1.length = s.1.length ∧
    (kiter f i s).2.length = s.2.length ∧
    (∀ j, i * 2 ≤ j → (kiter f i s).1[j]? = s.1[j]? ∧
      (kiter f i s).2[j]? = s.2[j]?) ∧
    ∀ j, j < 2 * (i + 1) →
      (kiter f n s).1[j]? = (f (kiter f i s) i).1[j]? ∧
      (kiter f n s).2[j]? = (f (kiter f i s) i).2[j]? := by
  refine ⟨kiter_length f Prod.fst Hfl i s, kiter_length f Prod.snd Hsl i s,
    fun j hj => ⟨?_, ?_⟩, fun j hj => ⟨?_, ?_⟩⟩
  · exact kiter_getElem_high f Prod.fst 2
      (fun s k j hkj => Hf1 s k j (by omega) (by omega)) i s j (by omega)
  · exact kiter_getElem_high f Prod.snd 2
      (fun s k j hkj => Hf2 s k j (by omega) (by omega)) i s j (by omega)
  · exact kiter_getElem_decompose f Prod.fst 2
      (fun s k j hkj => Hf1 s k j (by omega) (by omega)) n i j hi hj s
  · exact kiter_getElem_decompose f Prod.snd 2
      (fun s k j hkj => Hf2 s k j (by omega) (by omega)) n i j hi hj s

theorem kiter_list_agent {f : List ℝ → Nat → List ℝ} (c : Nat)
    (Hl : ∀ l k, (f l k).length = l.length)
    (Hlow : ∀ l k j, j < c * k → (f l k)[j]? = l[j]?)
    (Hhigh : ∀ l k j, c * (k + 1) ≤ j → (f l k)[j]? = l[j]?)
    (n i : Nat) (hi : i < n) (l : List ℝ) :
    (kiter f i l).length = l.length ∧
    (∀ j, c * i ≤ j → (kiter f i l)[j]? = l[j]?) ∧
    ∀ j, j < c * (i + 1) → (kiter f n l)[j]? = (f (kiter f i l) i)[j]? := by
  refine ⟨kiter_length f (fun x => x) Hl i l, fun j hj =>
    kiter_getElem_high f (fun x => x) c Hhigh i l j hj, fun j hj =>
    kiter_getElem_decompose f (fun x => x) c Hlow n i j hi hj l⟩

/-- Claim C1: for every combination of input buffers (of arbitrary, possibly
mismatched or odd lengths) and arbitrary scalar arguments, every exported
kernel is a total function that never writes outside its buffers: each
mutated buffer keeps exactly its input length.  (Out-of-range reads
defaulting to `0` and out-of-range writes being dropped are the translation
of the source's `get(..).unwrap_or(0.0)` / guarded `get_mut` accesses into
`List.getD` / `List.set`.) -/
theorem C1_kernels_no_oob
    (positions velocities accelerations targets out : List ℝ)
    (dt min_speed max_speed drag width height force_x force_y : ℝ) :
    (integrate_all positions velocities accelerations
        dt min_speed max_speed drag).1.length = positions.length ∧
    (integrate_all positions velocities accelerations
        dt min_speed max_speed drag).2.length = velocities.length ∧
    (apply_drag_all velocities drag).length = velocities.length ∧
    (clamp_speeds_all velocities min_speed max_speed).length =
      velocities.length ∧
    (compute_distances_batch positions targets out).length = out.length ∧
    (wrap_positions_all positions width height).length = positions.length ∧
    (bounce_positions_all positions velocities width height).1.length =
      positions.length ∧
    (bounce_positions_all positions velocities width height).2.length =
      velocities.length ∧
    (reset_accelerations_all accelerations).length = accelerations.length ∧
    (add_force_all accelerations force_x force_y).length =
      accelerations.length :=
  ⟨integrate_all_fst_length _ _ _ _ _ _ _,
   integrate_all_snd_length _ _ _ _ _ _ _,
   apply_drag_all_length _ _,
   clamp_speeds_all_length _ _ _,
   compute_distances_batch_length _ _ _,
   wrap_positions_all_length _ _ _,
   bounce_positions_all_fst_length _ _ _ _,
   bounce_positions_all_snd_length _ _ _ _,
   reset_accelerations_all_length _,
   add_force_all_length _ _ _⟩

/-- Claim C2 is false as stated: with `positions = [10, 10]`,
`velocities = []` (empty, so the fully-paired overlap is empty) and
`accelerations = [1, 0]`, `integrate_all` with `dt = 1`, `min_speed = 0`,
`max_speed = 10`, `drag = 0` still advances `positions[0]` from `10` to
`11` — the element of the longer buffer beyond the overlap is changed. -/
theorem C2_counterexample :
    (integrate_all [10, 10] [] [1, 0] 1 0 10 0).1 = [11, 10] ∧
    ¬ ((integrate_all [10, 10] [] [1, 0] 1 0 10 0).1 = [10, 10]) := by
  constructor <;>
    norm_num [integrate_all, kiter, integrateStep, List.getD]

/-- Claim C2 (amended): a mismatched call never faults (buffer lengths are
preserved); velocity entries at or beyond the processed range
`2·(len positions / 2)` are untouched; and a position entry whose paired
velocity entry is out of range is unchanged provided the corresponding
acceleration entry reads `0` (with a nonzero acceleration entry the
position is still advanced, using the default velocity `0`). -/
theorem C2_amended (ps vs acc : List ℝ) (dt minS maxS drag : ℝ)
    (j k : Nat) (hvj : vs.length ≤ j) (haj : acc.getD j 0 = 0)
    (hk : 2 * (ps.length / 2) ≤ k) :
    (integrate_all ps vs acc dt minS maxS drag).1.length = ps.length ∧
    (integrate_all ps vs acc dt minS maxS drag).2.length = vs.length ∧
    (integrate_all ps vs acc dt minS maxS drag).1[j]? = ps[j]? ∧
    (integrate_all ps vs acc dt minS maxS drag).2[k]? = vs[k]? := by
  refine ⟨integrate_all_fst_length ps vs acc dt minS maxS drag,
    integrate_all_snd_length ps vs acc dt minS maxS drag, ?_, ?_⟩
  · simp only [integrate_all]
    by_cases hj : j < 2 * (ps.length / 2)
    · have hi : j / 2 < ps.length / 2 := by omega
      obtain ⟨hl1, hl2, hun, hdec⟩ := kiter_pair_agent
        (integrateStep_fst_length acc dt minS maxS drag)
        (integrateStep_snd_length acc dt minS maxS drag)
        (integrateStep_fst_getElem_ne acc dt minS maxS drag)
        (integrateStep_snd_getElem_ne acc dt minS maxS drag)
        (ps.length / 2) (j / 2) hi (ps, vs)
      rw [(hdec j (by omega)).1,
        integrateStep_fst_unchanged_of_zero acc dt minS maxS drag _ (j / 2) j
          (by omega) (getD_eq_zero_of_ge _ j (by rw [hl2]; exact hvj)) haj]
      exact (hun j (by omega)).1
    · exact kiter_getElem_high _ Prod.fst 2
        (fun s k j hkj =>
          integrateStep_fst_getElem_ne acc dt minS maxS drag s k j
            (by omega) (by omega))
        (ps.length / 2) (ps, vs) j (by omega)
  · simp only [integrate_all]
    exact kiter_getElem_high _ Prod.snd 2
      (fun s k j hkj =>
        integrateStep_snd_getElem_ne acc dt minS maxS drag s k j
          (by omega) (by omega))
      (ps.length / 2) (ps, vs) k hk

/-- Witness for C2 (amended) at `positions = [10, 10, 20, 20]`,
`velocities = [1, 0]`, `accelerations = [0, 0, 0, 0]`: the position entry
at index 2 (whose velocity entry is missing, acceleration `0`) survives
the call unchanged. -/
theorem C2_amended_witness :
    (integrate_all [10, 10, 20, 20] [1, 0] [0, 0, 0, 0] 1 0 10 0).1[2]? =
      some 20 := by
  have hc := C2_amended [10, 10, 20, 20] [1, 0] [0, 0, 0, 0] 1 0 10 0 2 4
    (by norm_num) (by norm_num [List.getD]) (by norm_num)
  rw [hc.2.2.1]
  rfl

theorem map_const_getD_self (l : List ℝ) (n : Nat) (x : ℝ)
    (h : l.getD n 0 = x) : (l[n]?).map (fun _ => x) = l[n]? := by
  rcases Nat.lt_or_ge n l.length with hlt | hge
  · rw [List.getElem?_eq_getElem hlt]
    have hx : l[n] = x := by
      rw [← h, List.getD_eq_getElem?_getD, List.getElem?_eq_getElem hlt]
      rfl
    simp [hx]
  · rw [List.getElem?_eq_none hge]
    rfl

/-- Claim C3 is false as stated: with `positions = [0, 0]`,
`velocities = [10, 0]`, zero accelerations, `dt = 1`, `drag = 0` but
`max_speed = 5`, the speed clamp fires: the velocity is rescaled from `10`
to `5` (not left unchanged) and the position moves by `5`, not by
`velocity * dt = 10`. -/
theorem C3_counterexample :
    (integrate_all [0, 0] [10, 0] [0, 0] 1 0 5 0).2 = [5, 0] ∧
    (integrate_all [0, 0] [10, 0] [0, 0] 1 0 5 0).1 = [5, 0] ∧
    ¬ ((integrate_all [0, 0] [10, 0] [0, 0] 1 0 5 0).2 = [10, 0]) ∧
    ¬ ((integrate_all [0, 0] [10, 0] [0, 0] 1 0 5 0).1 =
      [0 + 10 * 1, 0 + 0 * 1]) := by
  have hs : Real.sqrt (100 : ℝ) = 10 := by
    rw [show (100 : ℝ) = 10 ^ 2 by norm_num]
    exact Real.sqrt_sq (by norm_num)
  refine ⟨?_, ?_, ?_, ?_⟩ <;>
    norm_num [integrate_all, kiter, integrateStep, List.getD, hs]

/-- Claim C3 (amended): with all acceleration reads zero and `drag = 0`,
and provided agent `i`'s squared speed does not exceed `max_speed²` and is
either at least `min_speed²` or at most `1e-4` (so neither clamp branch
fires), one `integrate_all` step moves agent `i`'s position by exactly
`velocity * dt` and leaves its velocity unchanged. -/
theorem C3_amended (ps vs acc : List ℝ) (dt min_speed max_speed : ℝ)
    (i : Nat) (vx vy : ℝ)
    (hlen : ps.length = vs.length)
    (hacc : ∀ j, acc.getD j 0 = 0)
    (hi : i < ps.length / 2)
    (hvx : vs.getD (i * 2) 0 = vx) (hvy : vs.getD (i * 2 + 1) 0 = vy)
    (hmax : vx * vx + vy * vy ≤ max_speed * max_speed)
    (hmin : min_speed * min_speed ≤ vx * vx + vy * vy ∨
      vx * vx + vy * vy ≤ 0.0001) :
    (integrate_all ps vs acc dt min_speed max_speed 0).2[i * 2]? =
      vs[i * 2]? ∧
    (integrate_all ps vs acc dt min_speed max_speed 0).2[i * 2 + 1]? =
      vs[i * 2 + 1]? ∧
    (integrate_all ps vs acc dt min_speed max_speed 0).1[i * 2]? =
      (ps[i * 2]?).map (fun p => p + vx * dt) ∧
    (integrate_all ps vs acc dt min_speed max_speed 0).1[i * 2 + 1]? =
      (ps[i * 2 + 1]?).map (fun p => p + vy * dt) := by
  obtain ⟨hl1, hl2, hun, hdec⟩ := kiter_pair_agent
    (integrateStep_fst_length acc dt min_speed max_speed 0)
    (integrateStep_snd_length acc dt min_speed max_speed 0)
    (integrateStep_fst_getElem_ne acc dt min_speed max_speed 0)
    (integrateStep_snd_getElem_ne acc dt min_speed max_speed 0)
    (ps.length / 2) i hi (ps, vs)
  have hrx : (kiter (integrateStep acc dt min_speed max_speed 0) i
      (ps, vs)).2.getD (i * 2) 0 = vx := by
    rw [List.getD_eq_getElem?_getD, (hun (i * 2) (by omega)).2,
      ← List.getD_eq_getElem?_getD, hvx]
  have hry : (kiter (integrateStep acc dt min_speed max_speed 0) i
      (ps, vs)).2.getD (i * 2 + 1) 0 = vy := by
    rw [List.getD_eq_getElem?_getD, (hun (i * 2 + 1) (by omega)).2,
      ← List.getD_eq_getElem?_getD, hvy]
  have hspec := integrateStep_spec_noclamp acc dt min_speed max_speed 0
    (kiter (integrateStep acc dt min_speed max_speed 0) i (ps, vs)) i vx vy
    (by rw [hrx, hacc]; ring) (by rw [hry, hacc]; ring)
    (not_lt.mpr hmax)
    (by
      rintro ⟨hlt, hgt⟩
      rcases hmin with hc | hc
      · exact absurd hlt (not_lt.mpr hc)
      · exact absurd hgt (not_lt.mpr hc))
  simp only [integrate_all]
  refine ⟨?_, ?_, ?_, ?_⟩
  · rw [(hdec (i * 2) (by omega)).2, hspec.1, (hun (i * 2) (by omega)).2]
    exact map_const_getD_self vs (i * 2) vx hvx
  · rw [(hdec (i * 2 + 1) (by omega)).2, hspec.2.1,
      (hun (i * 2 + 1) (by omega)).2]
    exact map_const_getD_self vs (i * 2 + 1) vy hvy
  · rw [(hdec (i * 2) (by omega)).1, hspec.2.2.1,
      (hun (i * 2) (by omega)).1]
  · rw [(hdec (i * 2 + 1) (by omega)).1, hspec.2.2.2,
      (hun (i * 2 + 1) (by omega)).1]

/-- Witness for C3 (amended) at the spec's own example:
`positions = [0, 0, 10, 10]`, `velocities = [1, 0, 0, 1]`, zero
accelerations, `dt = 1`, speed bounds `0`/`10`: agent 1 ends at position
`(10, 11)` with velocity `(0, 1)` unchanged. -/
theorem C3_amended_witness :
    (integrate_all [0, 0, 10, 10] [1, 0, 0, 1] [0, 0, 0, 0] 1 0 10 0).1[2]? =
      some 10 ∧
    (integrate_all [0, 0, 10, 10] [1, 0, 0, 1] [0, 0, 0, 0] 1 0 10 0).1[3]? =
      some 11 ∧
    (integrate_all [0, 0, 10, 10] [1, 0, 0, 1] [0, 0, 0, 0] 1 0 10 0).2[2]? =
      some 0 ∧
    (integrate_all [0, 0, 10, 10] [1, 0, 0, 1] [0, 0, 0, 0] 1 0 10 0).2[3]? =
      some 1 := by
  obtain ⟨h1, h2, h3, h4⟩ := C3_amended [0, 0, 10, 10] [1, 0, 0, 1]
    [0, 0, 0, 0] 1 0 10 1 0 1 (by norm_num)
    (fun j => by rcases j with _ | (_ | (_ | (_ | j))) <;> rfl)
    (by norm_num) rfl rfl (by norm_num) (Or.inl (by norm_num))
  refine ⟨?_, ?_, ?_, ?_⟩
  · rw [show (2 : Nat) = 1 * 2 by norm_num, h3]
    norm_num
  · rw [show (3 : Nat) = 1 * 2 + 1 by norm_num, h4]
    norm_num
  · rw [show (2 : Nat) = 1 * 2 by norm_num, h1]
    rfl
  · rw [show (3 : Nat) = 1 * 2 + 1 by norm_num, h2]
    rfl

theorem bounceAxis_fst_getD_ne (dim : ℝ) (s : List ℝ × List ℝ) (idx j : Nat)
    (hne : j ≠ idx) :
    (bounceAxis dim s idx).1.getD j 0 = s.1.getD j 0 := by
  rw [List.getD_eq_getElem?_getD, List.getD_eq_getElem?_getD,
    bounceAxis_fst_getElem_ne dim s idx j hne]

theorem bounceAxis_snd_getD_ne (dim : ℝ) (s : List ℝ × List ℝ) (idx j : Nat)
    (hne : j ≠ idx) :
    (bounceAxis dim s idx).2.getD j 0 = s.2.getD j 0 := by
  rw [List.getD_eq_getElem?_getD, List.getD_eq_getElem?_getD,
    bounceAxis_snd_getElem_ne dim s idx j hne]

/-- Full behaviour of one `bounce_positions_all` axis when both the
position and the velocity entry exist and the world dimension is at least
the `0.001` inset: containment of the written coordinate, the two clamp
cases (velocity forced non-negative at the low edge, non-positive at the
high edge), and no-op on interior coordinates. -/
theorem bounceAxis_spec (dim : ℝ) (s : List ℝ × List ℝ) (idx : Nat)
    (hdim : 0.001 ≤ dim) (hp : idx < s.1.length) (hv : idx < s.2.length)
    (p v : ℝ) (hpe : s.1.getD idx 0 = p) (hve : s.2.getD idx 0 = v) :
    (0 ≤ (bounceAxis dim s idx).1.getD idx 0 ∧
      (bounceAxis dim s idx).1.getD idx 0 < dim) ∧
    (p < 0 → (bounceAxis dim s idx).1.getD idx 0 = 0 ∧
      (bounceAxis dim s idx).2.getD idx 0 = |v|) ∧
    (dim ≤ p → (bounceAxis dim s idx).1.getD idx 0 = dim - 0.001 ∧
      (bounceAxis dim s idx).2.getD idx 0 = -|v|) ∧
    (0 ≤ p → p < dim → bounceAxis dim s idx = s) := by
  simp only [bounceAxis, hpe, hve, if_pos (And.intro hp hv)]
  split_ifs with h1 h2
  · simp only [getD_set_self_of_lt s.1 idx 0 hp,
      getD_set_self_of_lt s.2 idx _ hv]
    exact ⟨⟨le_refl 0, by linarith⟩, fun _ => ⟨trivial, trivial⟩,
      fun hc => absurd h1 (not_lt.mpr (le_trans (by linarith) hc)),
      fun h0 _ => absurd h1 (not_lt.mpr h0)⟩
  · simp only [getD_set_self_of_lt s.1 idx _ hp,
      getD_set_self_of_lt s.2 idx _ hv]
    refine ⟨⟨by linarith, by linarith⟩,
      fun hc => absurd hc (not_lt.mpr (by linarith)),
      fun _ => ⟨trivial, trivial⟩, fun _ hc => absurd hc (not_lt.mpr h2)⟩
  · rw [hpe]
    exact ⟨⟨not_lt.mp h1, not_le.mp h2⟩,
      fun hc => absurd hc h1, fun hc => absurd hc h2, fun _ _ => rfl⟩

/-- Claim C4 is false as stated: with `positions = [-1, 5]`,
`velocities = [1, 1]`, `width = 0`, `height = 100`, the X coordinate is
clamped from `-1` to `0`, yet `0` does not lie in `[0, width) = [0, 0)`
(third conjunct) and the X velocity keeps its sign: it is `1 > 0` both
before and after the call (fourth conjunct), not flipped. -/
theorem C4_counterexample :
    (bounce_positions_all [-1, 5] [1, 1] 0 100).1 = [0, 5] ∧
    (bounce_positions_all [-1, 5] [1, 1] 0 100).2 = [1, 1] ∧
    ¬ ((bounce_positions_all [-1, 5] [1, 1] 0 100).1.getD 0 0 < 0) ∧
    ¬ ((bounce_positions_all [-1, 5] [1, 1] 0 100).2.getD 0 0 < 0) := by
  refine ⟨?_, ?_, ?_, ?_⟩ <;>
    norm_num [bounce_positions_all, kiter, bounceStep, bounceAxis, List.getD]

/-- Claim C4 (amended): provided `width` and `height` are at least the
`0.001` inset, every agent whose position and velocity entries are all in
range ends with its position inside `[0, width) × [0, height)`, and on a
clamped axis the velocity is forced inward — non-negative (`|v|`) at the
low edge, non-positive (`-|v|`) at the high edge — so its sign flips
exactly when it pointed outward. -/
theorem C4_amended (ps vs : List ℝ) (w h : ℝ) (i : Nat)
    (hw : 0.001 ≤ w) (hh : 0.001 ≤ h)
    (hip : i * 2 + 1 < ps.length) (hiv : i * 2 + 1 < vs.length) :
    (0 ≤ (bounce_positions_all ps vs w h).1.getD (i * 2) 0 ∧
      (bounce_positions_all ps vs w h).1.getD (i * 2) 0 < w) ∧
    (0 ≤ (bounce_positions_all ps vs w h).1.getD (i * 2 + 1) 0 ∧
      (bounce_positions_all ps vs w h).1.getD (i * 2 + 1) 0 < h) ∧
    (ps.getD (i * 2) 0 < 0 →
      (bounce_positions_all ps vs w h).1.getD (i * 2) 0 = 0 ∧
      (bounce_positions_all ps vs w h).2.getD (i * 2) 0 =
        |vs.getD (i * 2) 0|) ∧
    (w ≤ ps.getD (i * 2) 0 →
      (bounce_positions_all ps vs w h).1.getD (i * 2) 0 = w - 0.001 ∧
      (bounce_positions_all ps vs w h).2.getD (i * 2) 0 =
        -|vs.getD (i * 2) 0|) ∧
    (ps.getD (i * 2 + 1) 0 < 0 →
      (bounce_positions_all ps vs w h).1.getD (i * 2 + 1) 0 = 0 ∧
      (bounce_positions_all ps vs w h).2.getD (i * 2 + 1) 0 =
        |vs.getD (i * 2 + 1) 0|) ∧
    (h ≤ ps.getD (i * 2 + 1) 0 →
      (bounce_positions_all ps vs w h).1.getD (i * 2 + 1) 0 = h - 0.001 ∧
      (bounce_positions_all ps vs w h).2.getD (i * 2 + 1) 0 =
        -|vs.getD (i * 2 + 1) 0|) := by
  have hi : i < ps.length / 2 := by omega
  obtain ⟨hl1, hl2, hun, hdec⟩ := kiter_pair_agent
    (bounceStep_fst_length w h) (bounceStep_snd_length w h)
    (bounceStep_fst_getElem_ne w h) (bounceStep_snd_getElem_ne w h)
    (ps.length / 2) i hi (ps, vs)
  have hrx : (kiter (bounceStep w h) i (ps, vs)).1.getD (i * 2) 0 =
      ps.getD (i * 2) 0 := by
    rw [List.getD_eq_getElem?_getD, (hun (i * 2) (by omega)).1,
      ← List.getD_eq_getElem?_getD]
  have hry : (kiter (bounceStep w h) i (ps, vs)).1.getD (i * 2 + 1) 0 =
      ps.getD (i * 2 + 1) 0 := by
    rw [List.getD_eq_getElem?_getD, (hun (i * 2 + 1) (by omega)).1,
      ← List.getD_eq_getElem?_getD]
  have hvx : (kiter (bounceStep w h) i (ps, vs)).2.getD (i * 2) 0 =
      vs.getD (i * 2) 0 := by
    rw [List.getD_eq_getElem?_getD, (hun (i * 2) (by omega)).2,
      ← List.getD_eq_getElem?_getD]
  have hvy : (kiter (bounceStep w h) i (ps, vs)).2.getD (i * 2 + 1) 0 =
      vs.getD (i * 2 + 1) 0 := by
    rw [List.getD_eq_getElem?_getD, (hun (i * 2 + 1) (by omega)).2,
      ← List.getD_eq_getElem?_getD]
  have sx := bounceAxis_spec w (kiter (bounceStep w h) i (ps, vs)) (i * 2)
    hw (by rw [hl1]; show i * 2 < ps.length; omega)
    (by rw [hl2]; show i * 2 < vs.length; omega)
    (ps.getD (i * 2) 0) (vs.getD (i * 2) 0) hrx hvx
  have hs1p : (bounceAxis w (kiter (bounceStep w h) i (ps, vs))
      (i * 2)).1.getD (i * 2 + 1) 0 = ps.getD (i * 2 + 1) 0 := by
    rw [bounceAxis_fst_getD_ne w _ (i * 2) (i * 2 + 1) (by omega), hry]
  have hs1v : (bounceAxis w (kiter (bounceStep w h) i (ps, vs))
      (i * 2)).2.getD (i * 2 + 1) 0 = vs.getD (i * 2 + 1) 0 := by
    rw [bounceAxis_snd_getD_ne w _ (i * 2) (i * 2 + 1) (by omega), hvy]
  have sy := bounceAxis_spec h
    (bounceAxis w (kiter (bounceStep w h) i (ps, vs)) (i * 2)) (i * 2 + 1)
    hh (by rw [bounceAxis_fst_length, hl1]; show i * 2 + 1 < ps.length; omega)
    (by rw [bounceAxis_snd_length, hl2]; show i * 2 + 1 < vs.length; omega)
    (ps.getD (i * 2 + 1) 0) (vs.getD (i * 2 + 1) 0) hs1p hs1v
  have ex1 : (bounce_positions_all ps vs w h).1.getD (i * 2) 0 =
      (bounceAxis w (kiter (bounceStep w h) i (ps, vs))
        (i * 2)).1.getD (i * 2) 0 := by
    simp only [bounce_positions_all]
    rw [List.getD_eq_getElem?_getD, (hdec (i * 2) (by omega)).1, bounceStep,
      bounceAxis_fst_getElem_ne h _ (i * 2 + 1) (i * 2) (by omega),
      ← List.getD_eq_getElem?_getD]
  have ex2 : (bounce_positions_all ps vs w h).2.getD (i * 2) 0 =
      (bounceAxis w (kiter (bounceStep w h) i (ps, vs))
        (i * 2)).2.getD (i * 2) 0 := by
    simp only [bounce_positions_all]
    rw [List.getD_eq_getElem?_getD, (hdec (i * 2) (by omega)).2, bounceStep,
      bounceAxis_snd_getElem_ne h _ (i * 2 + 1) (i * 2) (by omega),
      ← List.getD_eq_getElem?_getD]
  have ey1 : (bounce_positions_all ps vs w h).1.getD (i * 2 + 1) 0 =
      (bounceAxis h (bounceAxis w (kiter (bounceStep w h) i (ps, vs))
        (i * 2)) (i * 2 + 1)).1.getD (i * 2 + 1) 0 := by
    simp only [bounce_positions_all]
    rw [List.getD_eq_getElem?_getD, (hdec (i * 2 + 1) (by omega)).1,
      bounceStep, ← List.getD_eq_getElem?_getD]
  have ey2 : (bounce_positions_all ps vs w h).2.getD (i * 2 + 1) 0 =
      (bounceAxis h (bounceAxis w (kiter (bounceStep w h) i (ps, vs))
        (i * 2)) (i * 2 + 1)).2.getD (i * 2 + 1) 0 := by
    simp only [bounce_positions_all]
    rw [List.getD_eq_getElem?_getD, (hdec (i * 2 + 1) (by omega)).2,
      bounceStep, ← List.getD_eq_getElem?_getD]
  rw [ex1, ex2, ey1, ey2]
  exact ⟨sx.1, sy.1, sx.2.1, sx.2.2.1, sy.2.1, sy.2.2.1⟩

/-- Witness for C4 (amended) at `positions = [-1, 200]`,
`velocities = [1, -3]`, `width = height = 100`: X is clamped at the low
edge (position `0`, velocity forced to `|1| = 1`), Y at the high edge
(position `100 - 0.001`, velocity forced to `-|-3| = -3`). -/
theorem C4_amended_witness :
    (bounce_positions_all [-1, 200] [1, -3] 100 100).1.getD 0 0 = 0 ∧
    (bounce_positions_all [-1, 200] [1, -3] 100 100).2.getD 0 0 = 1 ∧
    (bounce_positions_all [-1, 200] [1, -3] 100 100).1.getD 1 0 =
      100 - 0.001 ∧
    (bounce_positions_all [-1, 200] [1, -3] 100 100).2.getD 1 0 = -3 := by
  obtain ⟨_, _, h3, _, _, h6⟩ := C4_amended [-1, 200] [1, -3] 100 100 0
    (by norm_num) (by norm_num) (by norm_num) (by norm_num)
  have a3 := h3 (by norm_num [List.getD])
  have a6 := h6 (by norm_num [List.getD])
  refine ⟨?_, ?_, ?_, ?_⟩
  · have := a3.1
    simpa using this
  · have := a3.2
    simp only [Nat.zero_mul] at this
    rw [this]
    norm_num [List.getD]
  · have := a6.1
    simpa using this
  · have := a6.2
    simp only [Nat.zero_mul, Nat.zero_add] at this
    rw [this]
    norm_num [List.getD]

/-- Pointwise characterization of the `add_force_all` loop: entry `j` gains
`force_x` (even `j`) or `force_y` (odd `j`) exactly when `j < 2·count`. -/
theorem addForce_kiter_getElem (fx fy : ℝ) :
    ∀ (n : Nat) (l : List ℝ) (j : Nat),
      (kiter (addForceStep fx fy) n l)[j]? =
        if j < 2 * n then
          (l[j]?).map (fun x => x + (if j % 2 = 0 then fx else fy))
        else l[j]?
  | 0, l, j => by rw [kiter_zero, if_neg (by omega)]
  | n + 1, l, j => by
    rw [kiter_succ]
    by_cases hj : j < 2 * n
    · rw [addForceStep_getElem_ne fx fy _ n j (by omega) (by omega),
        addForce_kiter_getElem fx fy n l j, if_pos hj,
        if_pos (by omega : j < 2 * (n + 1))]
    · by_cases hj2 : j = n * 2
      · subst hj2
        rw [if_pos (by omega : n * 2 < 2 * (n + 1))]
        simp only [addForceStep]
        rw [List.getElem?_set_ne (by omega), getElem?_set_getD_add,
          addForce_kiter_getElem fx fy n l (n * 2),
          if_neg (by omega : ¬ n * 2 < 2 * n),
          if_pos (by omega : n * 2 % 2 = 0)]
      · by_cases hj3 : j = n * 2 + 1
        · subst hj3
          rw [if_pos (by omega : n * 2 + 1 < 2 * (n + 1))]
          simp only [addForceStep]
          rw [getElem?_set_getD_add, List.getElem?_set_ne (by omega),
            addForce_kiter_getElem fx fy n l (n * 2 + 1),
            if_neg (by omega : ¬ n * 2 + 1 < 2 * n),
            if_neg (by omega : ¬ (n * 2 + 1) % 2 = 0)]
        · rw [addForceStep_getElem_ne fx fy _ n j (by omega) (by omega),
            addForce_kiter_getElem fx fy n l j,
            if_neg (by omega : ¬ j < 2 * n),
            if_neg (by omega : ¬ j < 2 * (n + 1))]

/-- Claim C5: two sequential `add_force_all` calls with forces
`(f1x, f1y)` and `(f2x, f2y)` produce exactly the same accelerations
buffer as one call with the summed force, for every buffer. -/
theorem C5_force_accumulation (accelerations : List ℝ)
    (f1x f1y f2x f2y : ℝ) :
    add_force_all (add_force_all accelerations f1x f1y) f2x f2y =
      add_force_all accelerations (f1x + f2x) (f1y + f2y) := by
  have hlen : (kiter (addForceStep f1x f1y) (accelerations.length / 2)
      accelerations).length = accelerations.length :=
    kiter_length _ (fun x => x) (addForceStep_length f1x f1y) _ _
  apply List.ext_getElem?
  intro j
  simp only [add_force_all, hlen]
  rw [addForce_kiter_getElem f2x f2y, addForce_kiter_getElem f1x f1y,
    addForce_kiter_getElem (f1x + f2x) (f1y + f2y)]
  by_cases hj : j < 2 * (accelerations.length / 2)
  · simp only [if_pos hj]
    cases accelerations[j]? with
    | none => rfl
    | some x =>
      rcases Nat.mod_two_eq_zero_or_one j with hm | hm <;>
        simp [hm, add_assoc]
  · simp only [if_neg hj]

theorem minDistLoop_le_max (px py : ℝ) (targets : List ℝ) :
    ∀ n, minDistLoop px py targets n ≤ f32Max
  | 0 => le_refl _
  | n + 1 => by
    simp only [minDistLoop]
    split_ifs with hlt
    · exact le_trans (le_of_lt hlt) (minDistLoop_le_max px py targets n)
    · exact minDistLoop_le_max px py targets n

theorem minDistLoop_le_dist (px py : ℝ) (targets : List ℝ) :
    ∀ n j, j < n →
      minDistLoop px py targets n ≤
        (px - targets.getD (j * 2) 0) * (px - targets.getD (j * 2) 0) +
        (py - targets.getD (j * 2 + 1) 0) * (py - targets.getD (j * 2 + 1) 0)
  | 0, j, hj => absurd hj (Nat.not_lt_zero j)
  | n + 1, j, hj => by
    simp only [minDistLoop]
    rcases Nat.lt_succ_iff_lt_or_eq.mp hj with hlt | rfl
    · split_ifs with hc
      · exact le_trans (le_of_lt hc) (minDistLoop_le_dist px py targets n j hlt)
      · exact minDistLoop_le_dist px py targets n j hlt
    · split_ifs with hc
      · exact le_refl _
      · exact le_of_not_lt hc

theorem minDistLoop_attained (px py : ℝ) (targets : List ℝ) :
    ∀ n, minDistLoop px py targets n = f32Max ∨
      ∃ j, j < n ∧ minDistLoop px py targets n =
        (px - targets.getD (j * 2) 0) * (px - targets.getD (j * 2) 0) +
        (py - targets.getD (j * 2 + 1) 0) * (py - targets.getD (j * 2 + 1) 0)
  | 0 => Or.inl rfl
  | n + 1 => by
    simp only [minDistLoop]
    split_ifs with hc
    · exact Or.inr ⟨n, Nat.lt_succ_self n, rfl⟩
    · rcases minDistLoop_attained px py targets n with h0 | ⟨j, hj, he⟩
      · exact Or.inl h0
      · exact Or.inr ⟨j, Nat.lt_succ_of_lt hj, he⟩

/-- Claim C6 is false as stated: with a single agent at `(2⁶⁴, 0)` and a
single target at `(0, 0)`, the squared distance `2¹²⁸` exceeds the
`f32::MAX` sentinel (`2¹²⁸ − 2¹⁰⁴`), the strict-`<` update never fires,
and the kernel writes the sentinel instead of the minimum squared
distance. -/
theorem C6_counterexample :
    compute_distances_batch [(2 : ℝ) ^ 64, 0] [0, 0] [0] = [f32Max] ∧
    ¬ (compute_distances_batch [(2 : ℝ) ^ 64, 0] [0, 0] [0] =
      [((2 : ℝ) ^ 64 - 0) * ((2 : ℝ) ^ 64 - 0) +
        ((0 : ℝ) - 0) * ((0 : ℝ) - 0)]) := by
  constructor <;>
    norm_num [compute_distances_batch, kiter, distStep, minDistLoop, f32Max,
      List.getD]

/-- Claim C6 (amended): for an in-range agent `i` and at least one complete
target pair, `compute_distances_batch` writes into `out[i]` the minimum of
`f32::MAX` and the squared distances to all complete target pairs: the
written value is a lower bound of all those distances, is at most
`f32::MAX`, and is attained (it equals `f32::MAX` or one of the
distances).  In particular it selects the nearest target, never merely the
first one. -/
theorem C6_amended (positions targets out : List ℝ) (i : Nat) (px py : ℝ)
    (hi : i < positions.length / 2) (hio : i < out.length)
    (ht : 1 ≤ targets.length / 2)
    (hpx : positions.getD (i * 2) 0 = px)
    (hpy : positions.getD (i * 2 + 1) 0 = py) :
    ∃ m : ℝ, (compute_distances_batch positions targets out)[i]? = some m ∧
      m ≤ f32Max ∧
      (∀ j, j < targets.length / 2 →
        m ≤ (px - targets.getD (j * 2) 0) * (px - targets.getD (j * 2) 0) +
            (py - targets.getD (j * 2 + 1) 0) *
              (py - targets.getD (j * 2 + 1) 0)) ∧
      (m = f32Max ∨ ∃ j, j < targets.length / 2 ∧
        m = (px - targets.getD (j * 2) 0) * (px - targets.getD (j * 2) 0) +
            (py - targets.getD (j * 2 + 1) 0) *
              (py - targets.getD (j * 2 + 1) 0)) := by
  obtain ⟨hl, hun, hdec⟩ := kiter_list_agent 1
    (distStep_length positions targets)
    (fun l k j hkj => distStep_getElem_ne positions targets l k j (by omega))
    (fun l k j hkj => distStep_getElem_ne positions targets l k j (by omega))
    (positions.length / 2) i hi out
  refine ⟨minDistLoop px py targets (targets.length / 2), ?_,
    minDistLoop_le_max px py targets _,
    fun j hj => minDistLoop_le_dist px py targets _ j hj,
    minDistLoop_attained px py targets _⟩
  simp only [compute_distances_batch]
  rw [hdec i (by omega)]
  simp only [distStep, hpx, hpy]
  exact getElem?_set_lt _ i _ (by rw [hl]; exact hio)

/-- Witness for C6 (amended) at the spec's example: one agent at `(0, 0)`,
targets `(3, 4)` and `(1, 1)`: the written value is `2` — the nearest
target's squared distance, below the first target's `25`. -/
theorem C6_amended_witness :
    (compute_distances_batch [0, 0] [3, 4, 1, 1] [0])[0]? = some 2 ∧
    ((2 : ℝ) ≤ ((0 : ℝ) - 3) * ((0 : ℝ) - 3) + ((0 : ℝ) - 4) * ((0 : ℝ) - 4)) := by
  obtain ⟨m, hm, _, hlb, _⟩ := C6_amended [0, 0] [3, 4, 1, 1] [0] 0 0 0
    (by norm_num) (by norm_num) (by norm_num) rfl rfl
  have heval : (compute_distances_batch [0, 0] [3, 4, 1, 1] [0])[0]? =
      some 2 := by
    norm_num [compute_distances_batch, kiter, distStep, minDistLoop, f32Max,
      List.getD]
  refine ⟨heval, ?_⟩
  have h2 : m = 2 := (Option.some_inj.mp (heval.symm.trans hm)).symm
  have h0 := hlb 0 (by norm_num)
  rw [h2] at h0
  simpa [List.getD] using h0

/-- Claim C7 is false as stated: the velocity `(1/100, 0)` has squared
magnitude exactly `1e-4 ≤ 1e-4` and lies below `min_speed = 1`, yet with
`max_speed = 1/200` the maximum-speed branch still fires and rescales it
to `(1/200, 0)` — the `1e-4` guard exempts only the minimum-speed branch. -/
theorem C7_counterexample :
    clamp_speeds_all [1 / 100, 0] 1 (1 / 200) = [1 / 200, 0] ∧
    ¬ (clamp_speeds_all [1 / 100, 0] 1 (1 / 200) = [1 / 100, 0]) ∧
    ((1 / 100 : ℝ) * (1 / 100) + 0 * 0 ≤ 0.0001) ∧
    ((1 / 100 : ℝ) * (1 / 100) + 0 * 0 < 1 * 1) := by
  have hs : Real.sqrt (10000 : ℝ) = 100 := by
    rw [show (10000 : ℝ) = 100 ^ 2 by norm_num]
    exact Real.sqrt_sq (by norm_num)
  refine ⟨?_, ?_, by norm_num, by norm_num⟩ <;>
    norm_num [clamp_speeds_all, kiter, clampStep, List.getD, hs]

/-- Claim C7 (amended): in `clamp_speeds_all` a velocity with squared
magnitude at most `1e-4` is exempt from the minimum-speed rescale and, as
long as its squared magnitude also does not exceed `max_speed²`, is left
completely unmodified; the identical clamp step inside `integrate_all`
(`integrateStep`) likewise stores the post-drag velocity unscaled under
the same bounds. -/
theorem C7_amended (vs : List ℝ) (min_speed max_speed : ℝ) (i : Nat)
    (vx vy : ℝ) (hvx : vs.getD (i * 2) 0 = vx)
    (hvy : vs.getD (i * 2 + 1) 0 = vy)
    (hsmall : vx * vx + vy * vy ≤ 0.0001)
    (hmax : vx * vx + vy * vy ≤ max_speed * max_speed) :
    (clamp_speeds_all vs min_speed max_speed)[i * 2]? = vs[i * 2]? ∧
    (clamp_speeds_all vs min_speed max_speed)[i * 2 + 1]? =
      vs[i * 2 + 1]? ∧
    ∀ (acc : List ℝ) (dt drag : ℝ) (s : List ℝ × List ℝ) (nvx nvy : ℝ),
      nvx = (s.2.getD (i * 2) 0 + acc.getD (i * 2) 0 * dt) * (1 - drag) →
      nvy = (s.2.getD (i * 2 + 1) 0 + acc.getD (i * 2 + 1) 0 * dt) *
        (1 - drag) →
      nvx * nvx + nvy * nvy ≤ 0.0001 →
      nvx * nvx + nvy * nvy ≤ max_speed * max_speed →
      (integrateStep acc dt min_speed max_speed drag s i).2[i * 2]? =
        (s.2[i * 2]?).map (fun _ => nvx) ∧
      (integrateStep acc dt min_speed max_speed drag s i).2[i * 2 + 1]? =
        (s.2[i * 2 + 1]?).map (fun _ => nvy) := by
  have key : ∀ l : List ℝ, l.getD (i * 2) 0 = vx →
      l.getD (i * 2 + 1) 0 = vy →
      clampStep min_speed max_speed l i = l := fun l h1 h2 =>
    clampStep_eq_of_noclamp min_speed max_speed l i vx vy h1 h2
      (not_lt.mpr hmax)
      (by rintro ⟨_, hgt⟩; exact absurd hgt (not_lt.mpr hsmall))
  have main : ∀ j, (j = i * 2 ∨ j = i * 2 + 1) →
      (clamp_speeds_all vs min_speed max_speed)[j]? = vs[j]? := by
    intro j hj
    by_cases hi : i < vs.length / 2
    · obtain ⟨hl, hun, hdec⟩ := kiter_list_agent 2
        (clampStep_length min_speed max_speed)
        (fun l k j hkj =>
          clampStep_getElem_ne min_speed max_speed l k j (by omega) (by omega))
        (fun l k j hkj =>
          clampStep_getElem_ne min_speed max_speed l k j (by omega) (by omega))
        (vs.length / 2) i hi vs
      simp only [clamp_speeds_all]
      rw [hdec j (by omega),
        key (kiter (clampStep min_speed max_speed) i vs)
          (by rw [List.getD_eq_getElem?_getD, hun (i * 2) (by omega),
            ← List.getD_eq_getElem?_getD, hvx])
          (by rw [List.getD_eq_getElem?_getD, hun (i * 2 + 1) (by omega),
            ← List.getD_eq_getElem?_getD, hvy])]
      exact hun j (by omega)
    · simp only [clamp_speeds_all]
      exact kiter_getElem_high _ (fun x => x) 2
        (fun l k j hkj =>
          clampStep_getElem_ne min_speed max_speed l k j (by omega) (by omega))
        (vs.length / 2) vs j (by omega)
  refine ⟨main (i * 2) (Or.inl rfl), main (i * 2 + 1) (Or.inr rfl), ?_⟩
  intro acc dt drag s nvx nvy hx hy hns hnm
  have hspec := integrateStep_spec_noclamp acc dt min_speed max_speed drag
    s i nvx nvy hx hy (not_lt.mpr hnm)
    (by rintro ⟨_, hgt⟩; exact absurd hgt (not_lt.mpr hns))
  exact ⟨hspec.1, hspec.2.1⟩

/-- Witness for C7 (amended): the velocity `(1/100, 0)` (squared magnitude
exactly `1e-4`, below `min_speed = 1` but within `max_speed = 1`) survives
`clamp_speeds_all` unmodified. -/
theorem C7_amended_witness :
    (clamp_speeds_all [1 / 100, 0] 1 1)[0]? = some (1 / 100) ∧
    ((1 / 100 : ℝ) * (1 / 100) + 0 * 0 ≤ 0.0001) := by
  have hc := C7_amended [1 / 100, 0] 1 1 0 (1 / 100) 0 rfl rfl (by norm_num)
    (by norm_num)
  refine ⟨?_, by norm_num⟩
  have h := hc.1
  simpa using h

theorem map_zero_replicate :
    ∀ l : List ℝ, l.map (fun _ => (0 : ℝ)) = List.replicate l.length 0
  | [] => rfl
  | a :: t => by simp [map_zero_replicate t, List.replicate_succ]

/-- Claim C8: for `drag ∈ [0, 1]`, `apply_drag_all` never increases the
magnitude of any velocity component (reads past the end included, via the
defaulted `getD`); with `drag = 0` it is the identity and with `drag = 1`
it zeroes every component. -/
theorem C8_drag_monotone (velocities : List ℝ) (drag : ℝ)
    (h0 : 0 ≤ drag) (h1 : drag ≤ 1) :
    (∀ j : Nat, |(apply_drag_all velocities drag).getD j 0| ≤
      |velocities.getD j 0|) ∧
    (drag = 0 → apply_drag_all velocities drag = velocities) ∧
    (drag = 1 → apply_drag_all velocities drag =
      List.replicate velocities.length 0) := by
  refine ⟨?_, ?_, ?_⟩
  · intro j
    rw [apply_drag_all, List.getD_eq_getElem?_getD,
      List.getD_eq_getElem?_getD, List.getElem?_map]
    cases velocities[j]? with
    | none => simp
    | some v =>
      simp only [Option.map_some', Option.getD_some]
      rw [abs_mul]
      have hd : |1 - drag| ≤ 1 := by
        rw [abs_le]
        constructor <;> linarith
      calc |v| * |1 - drag| ≤ |v| * 1 :=
            mul_le_mul_of_nonneg_left hd (abs_nonneg v)
        _ = |v| := mul_one _
  · rintro rfl
    simp [apply_drag_all]
  · rintro rfl
    rw [apply_drag_all,
      show (fun v : ℝ => v * (1 - 1)) = fun _ => (0 : ℝ) by funext v; ring]
    exact map_zero_replicate velocities

/-- Witness for C8 at `drag = 1/2`, `velocities = [4, -2]`. -/
theorem C8_drag_monotone_witness :
    |(apply_drag_all [4, -2] (1 / 2)).getD 0 0| ≤
      |([4, -2] : List ℝ).getD 0 0| :=
  (C8_drag_monotone [4, -2] (1 / 2) (by norm_num) (by norm_num)).1 0

/-- Claim C9: with fewer than two target scalars (zero complete target
pairs) the inner scan never runs, and `compute_distances_batch` writes the
`f32::MAX` sentinel — not zero, and not the old value — into `out[i]` for
every in-range agent `i`. -/
theorem C9_no_complete_target (positions targets out : List ℝ) (i : Nat)
    (ht : targets.length < 2) (hi : i < positions.length / 2)
    (hio : i < out.length) :
    (compute_distances_batch positions targets out)[i]? = some f32Max ∧
    f32Max ≠ 0 := by
  obtain ⟨hl, hun, hdec⟩ := kiter_list_agent 1
    (distStep_length positions targets)
    (fun l k j hkj => distStep_getElem_ne positions targets l k j (by omega))
    (fun l k j hkj => distStep_getElem_ne positions targets l k j (by omega))
    (positions.length / 2) i hi out
  constructor
  · simp only [compute_distances_batch]
    rw [hdec i (by omega)]
    simp only [distStep]
    rw [show targets.length / 2 = 0 by omega]
    exact getElem?_set_lt _ i _ (by rw [hl]; exact hio)
  · norm_num [f32Max]

/-- Witness for C9: one agent, an empty target buffer, `out = [7]`: the
kernel overwrites `7` with `f32::MAX`. -/
theorem C9_no_complete_target_witness :
    (compute_distances_batch [3, 4] [] [7])[0]? = some f32Max :=
  (C9_no_complete_target [3, 4] [] [7] 0 (by norm_num) (by norm_num)
    (by norm_num)).1

theorem bounceAxis_fst_getElem_oob_vel (dim : ℝ) (s : List ℝ × List ℝ)
    (idx j : Nat) (hj : s.2.length ≤ j) :
    (bounceAxis dim s idx).1[j]? = s.1[j]? := by
  rcases eq_or_ne j idx with rfl | hne
  · simp only [bounceAxis]
    rw [if_neg (by omega)]
  · exact bounceAxis_fst_getElem_ne dim s idx j hne

/-- Claim C10: in `bounce_positions_all`, a position entry whose paired
velocity entry is out of range (`velocities` shorter) is left completely
unmodified, whatever its value — the clamp on an axis requires both the
position and the velocity entry to exist. -/
theorem C10_bounce_skips_unpaired (ps vs : List ℝ) (w h : ℝ) (j : Nat)
    (hvj : vs.length ≤ j) :
    (bounce_positions_all ps vs w h).1[j]? = ps[j]? := by
  simp only [bounce_positions_all]
  have H : ∀ n, (kiter (bounceStep w h) n (ps, vs)).1[j]? = ps[j]? ∧
      (kiter (bounceStep w h) n (ps, vs)).2.length = vs.length := by
    intro n
    induction n with
    | zero => exact ⟨rfl, rfl⟩
    | succ n ih =>
      refine ⟨?_, ?_⟩
      · rw [kiter_succ, bounceStep,
          bounceAxis_fst_getElem_oob_vel _ _ _ j
            (by rw [bounceAxis_snd_length, ih.2]; exact hvj),
          bounceAxis_fst_getElem_oob_vel _ _ _ j (by rw [ih.2]; exact hvj)]
        exact ih.1
      · rw [kiter_succ, bounceStep_snd_length, ih.2]
  exact (H (ps.length / 2)).1

/-- Witness for C10: `positions = [-5, 200]`, `velocities = [1]`,
`width = height = 100`: the Y coordinate `200` is far outside `[0, 100)`
but its velocity entry is missing, so it survives untouched. -/
theorem C10_bounce_skips_unpaired_witness :
    (bounce_positions_all [-5, 200] [1] 100 100).1[1]? = some 200 ∧
    ¬ ((200 : ℝ) < 100) := by
  refine ⟨?_, by norm_num⟩
  rw [C10_bounce_skips_unpaired [-5, 200] [1] 100 100 1 (by norm_num)]
  rfl
